import Mathlib

/-! Verification development for the two ProtonMail userscripts:
the inbox sort watcher (`checkURL` / `triggerSortByDate`) and the
signature remover (`removeSignature` / `waitForIframeDoc` /
`setupComposerObserver`). -/

/- ===== Navigation watcher (protonmail-oldest-first.user.js) ===== -/

/-- A parsed URL as exposed by the browser `URL` object: the fields the
script reads (`pathname`, `search`, `hash`). `hash` carries the leading
`#` when the fragment is non-empty, as in the DOM API. -/
structure JsURL where
  pathname : String
  search : String
  hash : String

/-- CONFIG.url.sortParam -/
def sortParam : String := "sort=date"

/-- After the `/u/` route head: one or more ASCII digits followed by the
literal tail `/inbox`, nothing after (the regex tail `\d+/inbox$`). -/
def digitsThenInbox : List Char → Bool
  | [] => false
  | c :: cs => if c.isDigit then digitsThenInbox cs else ((c :: cs) == ['/', 'i', 'n', 'b', 'o', 'x'])

/-- CONFIG.url.inboxPattern, the regex `^\/u\/\d+\/inbox$` applied to
`url.pathname`. -/
def matchesInboxPattern (p : String) : Bool :=
  match p.toList with
  | '/' :: 'u' :: '/' :: c :: cs => c.isDigit && digitsThenInbox cs
  | _ => false

/-- Whether the pattern is an initial segment of the second list. -/
def leadMatch : List Char → List Char → Bool
  | [], _ => true
  | _ :: _, [] => false
  | p :: ps, s :: ss => p == s && leadMatch ps ss

/-- Whether the pattern occurs as a contiguous run inside the list. -/
def occursIn (pat : List Char) : List Char → Bool
  | [] => leadMatch pat []
  | s :: ss => leadMatch pat (s :: ss) || occursIn pat ss

/-- JavaScript `s.includes(pat)`: substring test. -/
def strIncludes (s pat : String) : Bool := occursIn pat.toList s.toList

/-- The `URL.hash` setter (`url.hash = v`): empty string clears the
fragment, otherwise a `#` is prepended unless already present. -/
def jsSetHash (u : JsURL) (v : String) : JsURL :=
  { u with hash :=
      if v = "" then ""
      else match v.toList with
        | '#' :: _ => v
        | _ => "#" ++ v }

/-- `checkURL` from the sort script: reads the current URL; when the
pathname matches the inbox pattern and the hash lacks `sort=date`, sets
`url.hash = sort=date`, calls `history.replaceState` with the new URL
(so the location now carries the marker) and invokes
`triggerSortByDate`. Returns the updated location and whether the
branch fired (one `replaceState` and one `triggerSortByDate` call). -/
def checkURL (u : JsURL) : JsURL × Bool :=
  if matchesInboxPattern u.pathname && !(strIncludes u.hash sortParam) then
    (jsSetHash u sortParam, true)
  else
    (u, false)

/-- Delivering `n` successive "URL may have changed" notifications
(history wrapper, popstate, mutation observer, or the re-entrant call
made by the patched `replaceState` inside `checkURL` itself): each runs
`checkURL` on the current location; the second component counts how
many times the branch fired (= marker writes = `triggerSortByDate`
invocations). -/
def checkURLRun : Nat → JsURL × Nat → JsURL × Nat
  | 0, st => st
  | n + 1, (u, k) =>
    let r := checkURL u
    checkURLRun n (r.1, if r.2 then k + 1 else k)

/-- The `setInterval` loop inside `triggerSortByDate`, waiting for the
secondary sort button. `avail t` tells whether
`document.querySelector(CONFIG.selectors.sortOldestButton)` finds the
button at tick `t`. `sortIntervalActiveAfter avail n` is whether the
interval is still scheduled after `n` ticks: tick `t` runs the callback
only while active and calls `clearInterval` exactly when the button is
found — there is no attempt counter in this loop. -/
def sortIntervalActiveAfter (avail : Nat → Bool) : Nat → Bool
  | 0 => true
  | n + 1 => sortIntervalActiveAfter avail n && !(avail n)

/- ===== Signature remover (protonmail-remove-signature.user.js) ===== -/

mutual
/-- A DOM element: tag name, `classList` as a list of class tokens, and
element children in document order. -/
inductive Dom where
  | elem (tag : String) (classes : List String) (children : DomList)
/-- A forest of sibling elements in document order. -/
inductive DomList where
  | nil
  | cons (head : Dom) (tail : DomList)
end

/-- CONFIG.selectors.protonSignature without the leading dot
(`CONFIG.selectors.protonSignature.slice(1)`). -/
def protonSignatureClass : String := "protonmail_signature_block-proton"

/-- CONFIG.selectors.emptySignature without the leading dot
(`CONFIG.selectors.emptySignature.slice(1)`). -/
def emptySignatureClass : String := "protonmail_signature_block-empty"

/-- `element.classList.contains cls`. -/
def hasClass (d : Dom) (cls : String) : Bool :=
  match d with
  | .elem _ cs _ => cs.contains cls

/-- `element.firstElementChild` (null when there is no element child). -/
def firstElementChild (d : Dom) : Option Dom :=
  match d with
  | .elem _ _ .nil => none
  | .elem _ _ (.cons c _) => some c

/-- Fused `querySelector('.cls')` + `remove()` over a sibling forest:
finds the first element in document order (preorder) whose class list
contains `cls`, removes it (with its subtree), and returns the forest
without it; `none` when `querySelector` would return null. -/
def removeFirstIn (cls : String) : DomList → Option DomList
  | .nil => none
  | .cons d ds =>
    if hasClass d cls then some ds
    else
      match d with
      | .elem t cs ch =>
        match removeFirstIn cls ch with
        | some ch' => some (.cons (.elem t cs ch') ds)
        | none =>
          match removeFirstIn cls ds with
          | some ds' => some (.cons d ds')
          | none => none

/-- `node.querySelector('.cls')` followed by `.remove()` on the match:
`some node'` when a descendant matched (node with that descendant
removed), `none` when `querySelector` returned null. -/
def removeFirstByClass (cls : String) (d : Dom) : Option Dom :=
  match d with
  | .elem t cs ch =>
    match removeFirstIn cls ch with
    | some ch' => some (.elem t cs ch')
    | none => none

/-- The `isEmptySignature` test of `removeSignature`:
`node.firstElementChild?.classList.contains(emptySignatureClass)`;
`undefined` (no element child) behaves as false at the `if`. -/
def isEmptySignature (node : Dom) : Bool :=
  ((firstElementChild node).map (fun c => hasClass c emptySignatureClass)).getD false

/-- The `<br>` created by `node.ownerDocument.createElement('br')`. -/
def brNode : Dom := .elem "br" [] .nil

/-- The surroundings of the signature-block node inside its parent:
`parent = some (bef, aft)` gives the element siblings before and after
the node; `none` models a detached node (`node.parentNode` null). -/
structure SigCtx where
  parent : Option (List Dom × List Dom)
  node : Dom

/-- The sibling removals of `removeSignature`. The captured `prev` is
the last entry of `bef` and `prevPrev` the one before it (the `<br>` is
inserted after them, so their identity is unaffected): the non-empty
branch runs `prev?.remove()`, the empty branch `prevPrev?.remove()`
then `prev?.remove()`; `List.dropLast [] = []` matches the `?.` no-op
on a missing sibling. -/
def siblingCleanup (isEmptySig : Bool) (bef : List Dom) : List Dom :=
  if !isEmptySig then bef.dropLast
  else bef.dropLast.dropLast

/-- The `try` body of `removeSignature`: computes `prev` and
`isEmptySignature`, creates the `<br>`, runs
`node.parentNode.insertBefore(br, node)` — which throws on a detached
node (`.error` carries the state at the throw; nothing was mutated
yet) — then the sibling removals, then `querySelector` + `remove` of
the nested proton signature, returning true exactly when it existed. -/
def removeSignatureBody (c : SigCtx) : Except SigCtx (SigCtx × Bool) :=
  let isEmptySig := isEmptySignature c.node
  match c.parent with
  | none => Except.error c
  | some (bef, aft) =>
    let bef' := siblingCleanup isEmptySig bef ++ [brNode]
    match removeFirstByClass protonSignatureClass c.node with
    | some node' => Except.ok (⟨some (bef', aft), node'⟩, true)
    | none => Except.ok (⟨some (bef', aft), c.node⟩, false)

/-- `removeSignature`: the `try`/`catch` wrapper — any exception in the
body is caught and turned into the failure return `false`, with the
DOM left as it was at the throw. -/
def removeSignature (c : SigCtx) : SigCtx × Bool :=
  match removeSignatureBody c with
  | .ok r => r
  | .error st => (st, false)

/-- CONFIG.maxInitAttempts. -/
def maxInitAttempts : Nat := 50

/-- CONFIG.initRetryDelay (ms between `checkDoc` calls). -/
def initRetryDelay : Nat := 50

/-- What reading `iframe.contentDocument` yields at a given attempt:
the access may throw (caught and ignored by `checkDoc`), be null, or be
a document with some `readyState`. -/
inductive DocAccess where
  | throws
  | nullDoc
  | doc (readyState : String)

/-- The resolve condition of `checkDoc`:
`doc && doc.readyState !== 'uninitialized'`; a throw is caught and
behaves like "not ready". -/
def accessReady : DocAccess → Bool
  | .doc rs => !(rs == "uninitialized")
  | .nullDoc => false
  | .throws => false

/-- Outcome of the promise returned by `waitForIframeDoc`. -/
inductive WaitResult where
  | resolved (attempt : Nat)
  | rejected

/-- The `checkDoc` retry loop: call number `k` (zero-based) increments
`attempts` to `k + 1`, resolves when the document is ready, rejects
when `attempts >= maxInitAttempts`, and otherwise schedules the next
call via `setTimeout`. `fuel` is a structural bound on the remaining
calls; started with `fuel = maxInitAttempts` at `k = 0` the
`attempts >= maxInitAttempts` test always fires before fuel runs out,
so the fuel-exhausted default is never reached. -/
def waitCalls (env : Nat → DocAccess) : Nat → Nat → WaitResult
  | _, 0 => .rejected
  | k, fuel + 1 =>
    if accessReady (env k) then .resolved k
    else if maxInitAttempts ≤ k + 1 then .rejected
    else waitCalls env (k + 1) fuel

/-- `waitForIframeDoc(iframe)`: runs `checkDoc` starting at attempt 0
against the iframe's document-access behaviour `env`. -/
def waitForIframeDoc (env : Nat → DocAccess) : WaitResult :=
  waitCalls env 0 maxInitAttempts

/-- Number of `checkDoc` calls the loop performs (same recursion as
`waitCalls`, counting calls instead of producing the outcome). -/
def waitCallCount (env : Nat → DocAccess) : Nat → Nat → Nat
  | _, 0 => 0
  | k, fuel + 1 =>
    if accessReady (env k) then 1
    else if maxInitAttempts ≤ k + 1 then 1
    else 1 + waitCallCount env (k + 1) fuel

/-- Total `checkDoc` calls made for one composer iframe. -/
def waitAttempts (env : Nat → DocAccess) : Nat := waitCallCount env 0 maxInitAttempts

/-- One `waitForIframeDoc(iframe).then(setupObserver).catch(() => {})`
chain from `setupComposerObserver`: `some ()` means the signature
observer was attached to that composer; `none` means the rejection was
swallowed by the `.catch` handler and that instance is never watched.
Total by construction: no exception escapes to the observer callback. -/
def watchComposer (env : Nat → DocAccess) : Option Unit :=
  match waitForIframeDoc env with
  | .resolved _ => some ()
  | .rejected => none

/-- The top-level composer observer handling a stream of detected
composer iframes: each is handed to its own `waitForIframeDoc` chain,
independently of the outcomes of the others (the observer itself stays
attached to `document.body` throughout). -/
def processComposerList (envs : List (Nat → DocAccess)) : List (Option Unit) :=
  envs.map watchComposer

/- ===== The node-type guard in setupComposerObserver ===== -/

/-- A JavaScript value as relevant to the guard expression
`!node.nodeType === Node.ELEMENT_NODE`: a boolean or a number. -/
inductive JSVal where
  | bool (b : Bool)
  | num (n : Nat)

/-- JavaScript strict equality `===`: values of different types are
never equal; same-typed values compare by value. -/
def jsStrictEq : JSVal → JSVal → Bool
  | .bool a, .bool b => a == b
  | .num a, .num b => a == b
  | _, _ => false

/-- JavaScript logical not `!v`: a number is falsy exactly when it is
zero (nodeType values are small non-negative integers), and `!` always
produces a boolean. -/
def jsNot : JSVal → JSVal
  | .bool b => .bool (!b)
  | .num n => .bool (n == 0)

/-- `Node.ELEMENT_NODE`. -/
def elementNodeConst : Nat := 1

/-- The guard expression `!node.nodeType === Node.ELEMENT_NODE` from
the composer-observer callback, evaluated under JavaScript semantics:
`!` binds before `===`. -/
def nodeTypeGuard (nodeType : Nat) : Bool :=
  jsStrictEq (jsNot (.num nodeType)) (.num elementNodeConst)

/-- An added node as seen by the composer-observer callback.
`matchesComposer` is `node.matches?.(CONFIG.selectors.composer)` —
`none` when the node has no `matches` method (text/comment nodes), in
which case optional chaining yields `undefined` (falsy at the `if`).
`composerDescendants` is `node.querySelectorAll?.(...)` — `none` again
models a missing method; otherwise the list of composer iframes found
under the node, each represented by its document-access behaviour.
`selfEnv` is the node's own behaviour when it is itself the iframe. -/
structure AddedNode where
  nodeType : Nat
  matchesComposer : Option Bool
  composerDescendants : Option (List (Nat → DocAccess))
  selfEnv : Nat → DocAccess

/-- The per-added-node body of the composer-observer callback: the
early return when the guard holds, then the `matches?.` check handing
the node itself to `waitForIframeDoc`, then the `querySelectorAll?.`
sweep over descendant composer iframes (`if (composerIframes)` skips
only when optional chaining produced `undefined`). Returns the iframes
handed to `waitForIframeDoc`. -/
def collectComposerIframes (n : AddedNode) : List (Nat → DocAccess) :=
  if nodeTypeGuard n.nodeType then []
  else
    (if n.matchesComposer.getD false then [n.selfEnv] else [])
      ++ (match n.composerDescendants with
          | some l => l
          | none => [])

/-- The same callback body with the early-return guard removed, for
comparison: what the callback does to every added node. -/
def collectComposerIframesNoGuard (n : AddedNode) : List (Nat → DocAccess) :=
  (if n.matchesComposer.getD false then [n.selfEnv] else [])
    ++ (match n.composerDescendants with
        | some l => l
        | none => [])

/- ===== Helper lemmas ===== -/

/-- The marker write keeps pathname and search and sets the fragment to
exactly `#sort=date`. -/
theorem jsSetHash_sortParam (u : JsURL) :
    jsSetHash u sortParam = ⟨u.pathname, u.search, "#sort=date"⟩ := rfl

/-- The written fragment contains the marker string. -/
theorem marked_hash_includes : strIncludes "#sort=date" sortParam = true := by decide

/-- Once `checkURL` is a no-op on a location, any number of further
notifications leaves the run state unchanged. -/
theorem checkURLRun_fix (u : JsURL) (k : Nat) (h : checkURL u = (u, false)) :
    ∀ n, checkURLRun n (u, k) = (u, k) := by
  intro n
  induction n with
  | zero => rfl
  | succ m ih => simp [checkURLRun, h, ih]

/-- On a location that already carries the freshly written marker,
`checkURL` is a no-op. -/
theorem checkURL_marked_noop (u : JsURL) :
    checkURL (jsSetHash u sortParam) = (jsSetHash u sortParam, false) := by
  have h : strIncludes (jsSetHash u sortParam).hash sortParam = true := marked_hash_includes
  simp [checkURL, h]

/-- When the document is never ready during the first
`maxInitAttempts` calls, the `checkDoc` loop ends in rejection (the
invariant `k + fuel = maxInitAttempts` ties the call index to the
remaining fuel of the faithful run). -/
theorem waitCalls_neverReady_rejected
    (env : Nat → DocAccess)
    (h : ∀ j, j < maxInitAttempts → accessReady (env j) = false) :
    ∀ fuel k, k + fuel = maxInitAttempts → waitCalls env k fuel = .rejected := by
  intro fuel
  induction fuel with
  | zero => intro k _; rfl
  | succ m ih =>
    intro k hk
    have hkmax : k < maxInitAttempts := by omega
    by_cases hc : maxInitAttempts ≤ k + 1
    · simp [waitCalls, h k hkmax, hc]
    · simp only [waitCalls, h k hkmax, Bool.false_eq_true, if_false, if_neg hc]
      exact ih (k + 1) (by omega)

/-- Each `checkDoc` loop performs at most `fuel` calls. -/
theorem waitCallCount_le_fuel (env : Nat → DocAccess) :
    ∀ fuel k, waitCallCount env k fuel ≤ fuel := by
  intro fuel
  induction fuel with
  | zero => intro k; simp [waitCallCount]
  | succ m ih =>
    intro k
    simp only [waitCallCount]
    split
    · omega
    · split
      · omega
      · have := ih (k + 1); omega

/- ===== Claims ===== -/

/-- Claim C1: for a signature block of the non-empty variant (its first
element child does not carry the empty-signature class) containing a
nested proton-signature element and having at least one preceding
element sibling, `removeSignature` leaves all preceding siblings but
the last, puts exactly one `<br>` immediately before the block,
removes the nested proton-signature element from the block, leaves the
following siblings untouched, and returns true. -/
theorem removeSignature_nonEmptyVariant
    (bef aft : List Dom) (node node' : Dom)
    (_hprev : 0 < bef.length)
    (hvar : isEmptySignature node = false)
    (hsig : removeFirstByClass protonSignatureClass node = some node') :
    removeSignature ⟨some (bef, aft), node⟩ =
      (⟨some (bef.dropLast ++ [brNode], aft), node'⟩, true) := by
  simp [removeSignature, removeSignatureBody, siblingCleanup, hvar, hsig]

/-- Witness for C1 on a concrete block with one preceding sibling. -/
theorem removeSignature_nonEmptyVariant_witness :
    removeSignature ⟨some ([Dom.elem "div" [] .nil], []),
        Dom.elem "div" ["protonmail_signature_block"]
          (.cons (.elem "div" [] .nil)
            (.cons (.elem "div" ["protonmail_signature_block-proton"] .nil) .nil))⟩ =
      (⟨some ([brNode], []),
        Dom.elem "div" ["protonmail_signature_block"]
          (.cons (.elem "div" [] .nil) .nil)⟩, true) :=
  removeSignature_nonEmptyVariant [Dom.elem "div" [] .nil] [] _ _ (by decide) rfl rfl

/-- Claim C2: for a signature block of the empty variant (its first
element child carries the empty-signature class) containing a nested
proton-signature element and having at least two preceding element
siblings, `removeSignature` removes the last two preceding siblings,
puts exactly one `<br>` immediately before the block, removes the
nested proton-signature element, and returns true. -/
theorem removeSignature_emptyVariant
    (bef aft : List Dom) (node node' : Dom)
    (_hprev : 2 ≤ bef.length)
    (hvar : isEmptySignature node = true)
    (hsig : removeFirstByClass protonSignatureClass node = some node') :
    removeSignature ⟨some (bef, aft), node⟩ =
      (⟨some (bef.dropLast.dropLast ++ [brNode], aft), node'⟩, true) := by
  simp [removeSignature, removeSignatureBody, siblingCleanup, hvar, hsig]

/-- Witness for C2 on a concrete empty-variant block with two
preceding siblings. -/
theorem removeSignature_emptyVariant_witness :
    removeSignature ⟨some ([Dom.elem "p" [] .nil, Dom.elem "div" [] .nil], []),
        Dom.elem "div" ["protonmail_signature_block"]
          (.cons (.elem "div" ["protonmail_signature_block-empty"] .nil)
            (.cons (.elem "div" ["protonmail_signature_block-proton"] .nil) .nil))⟩ =
      (⟨some ([brNode], []),
        Dom.elem "div" ["protonmail_signature_block"]
          (.cons (.elem "div" ["protonmail_signature_block-empty"] .nil) .nil)⟩, true) :=
  removeSignature_emptyVariant [Dom.elem "p" [] .nil, Dom.elem "div" [] .nil] [] _ _
    (by decide) rfl rfl

/-- Claim C3: on an attached signature block without a nested
proton-signature element, `removeSignature` still performs the sibling
cleanup and the `<br>` insertion, completes without throwing, and
returns false; in general the returned flag is true exactly when the
nested proton-signature element existed. -/
theorem removeSignature_noProtonSignature :
    (∀ (bef aft : List Dom) (node : Dom),
        removeFirstByClass protonSignatureClass node = none →
        removeSignature ⟨some (bef, aft), node⟩ =
          (⟨some (siblingCleanup (isEmptySignature node) bef ++ [brNode], aft), node⟩,
            false)) ∧
    (∀ (bef aft : List Dom) (node : Dom),
        (removeSignature ⟨some (bef, aft), node⟩).2 =
          (removeFirstByClass protonSignatureClass node).isSome) := by
  constructor
  · intro bef aft node h
    simp [removeSignature, removeSignatureBody, h]
  · intro bef aft node
    cases h : removeFirstByClass protonSignatureClass node <;>
      simp [removeSignature, removeSignatureBody, h]

/-- Witness for C3 on a concrete block with no proton signature
inside: the sibling is still removed, the `<br>` still inserted, and
the result is false. -/
theorem removeSignature_noProtonSignature_witness :
    removeSignature ⟨some ([Dom.elem "div" [] .nil], []),
        Dom.elem "div" ["protonmail_signature_block"]
          (.cons (.elem "div" [] .nil) .nil)⟩ =
      (⟨some ([brNode], []),
        Dom.elem "div" ["protonmail_signature_block"]
          (.cons (.elem "div" [] .nil) .nil)⟩, false) :=
  removeSignature_noProtonSignature.1 [Dom.elem "div" [] .nil] [] _ rfl

/-- Claim C4: any exception raised inside the removal steps (the
`.error` outcomes of the body, e.g. `insertBefore` on a node with no
parent) is caught by `removeSignature` and converted into the failure
return false, with the state as of the throw; no exception reaches the
caller. -/
theorem removeSignature_catchesException
    (c st : SigCtx) (h : removeSignatureBody c = .error st) :
    removeSignature c = (st, false) := by
  simp [removeSignature, h]

/-- Witness for C4: a detached node makes the body throw at
`insertBefore`; `removeSignature` returns false with nothing mutated. -/
theorem removeSignature_catchesException_witness :
    removeSignature ⟨none, brNode⟩ = (⟨none, brNode⟩, false) :=
  removeSignature_catchesException ⟨none, brNode⟩ ⟨none, brNode⟩ rfl

/-- Claim C5: starting from a location whose pathname matches the
inbox pattern and whose fragment lacks the marker, any positive number
of notifications makes `checkURL` write the marker exactly once and
fire `triggerSortByDate` exactly once: the fire count ends at 1 and
the location ends at the marker write of the first notification, every
later (or re-entrant) notification re-evaluating the predicate as
false. -/
theorem checkURL_triggersExactlyOnce
    (u : JsURL) (n : Nat)
    (hroute : matchesInboxPattern u.pathname = true)
    (hmark : strIncludes u.hash sortParam = false)
    (hn : 1 ≤ n) :
    checkURLRun n (u, 0) = (jsSetHash u sortParam, 1) := by
  obtain ⟨m, rfl⟩ : ∃ m, n = m + 1 := ⟨n - 1, by omega⟩
  have h1 : checkURL u = (jsSetHash u sortParam, true) := by
    simp [checkURL, hroute, hmark]
  calc checkURLRun (m + 1) (u, 0)
      = checkURLRun m (jsSetHash u sortParam, 1) := by simp [checkURLRun, h1]
    _ = (jsSetHash u sortParam, 1) :=
        checkURLRun_fix (jsSetHash u sortParam) 1 (checkURL_marked_noop u) m

/-- Witness for C5 on a concrete inbox URL and three notifications. -/
theorem checkURL_triggersExactlyOnce_witness :
    checkURLRun 3 (⟨"/u/0/inbox", "", ""⟩, 0) = (⟨"/u/0/inbox", "", "#sort=date"⟩, 1) :=
  checkURL_triggersExactlyOnce ⟨"/u/0/inbox", "", ""⟩ 3 (by decide) (by decide) (by decide)

/-- Claim C6: on a location whose fragment already contains the
marker string, any number of notifications leaves the location
unchanged and fires nothing (no history mutation, no trigger). -/
theorem checkURL_markedNoTrigger
    (u : JsURL) (n : Nat)
    (hmark : strIncludes u.hash sortParam = true) :
    checkURLRun n (u, 0) = (u, 0) := by
  have h : checkURL u = (u, false) := by simp [checkURL, hmark]
  exact checkURLRun_fix u 0 h n

/-- Witness for C6 on a concrete marked URL and four notifications. -/
theorem checkURL_markedNoTrigger_witness :
    checkURLRun 4 (⟨"/u/0/inbox", "", "#sort=date"⟩, 0) =
      (⟨"/u/0/inbox", "", "#sort=date"⟩, 0) :=
  checkURL_markedNoTrigger ⟨"/u/0/inbox", "", "#sort=date"⟩ 4 (by decide)

/-- Claim C7 counterexample: the claim says every polling loop
self-cancels on success or on reaching a maximum attempt count, but
the `setInterval` loop of `triggerSortByDate` has no attempt counter:
on the concrete schedule where the secondary sort button never appears
(`avail` constantly false) the interval is still active after every
number of ticks — it never self-cancels. -/
theorem sortIntervalNeverCancels :
    ∃ avail : Nat → Bool, ∀ n : Nat, sortIntervalActiveAfter avail n = true := by
  refine ⟨fun _ => false, fun n => ?_⟩
  induction n with
  | zero => rfl
  | succ m ih => simp [sortIntervalActiveAfter, ih]

/-- Claim C7 (amended): the iframe-document readiness loop
(`waitForIframeDoc`) self-cancels on success or on reaching
`maxInitAttempts` — it performs at most `maxInitAttempts` checks on
any schedule — while the sort-dropdown polling loop in
`triggerSortByDate` self-cancels only on success: a tick on which the
secondary sort button is present clears the interval. -/
theorem pollingLoopCancellation :
    (∀ env : Nat → DocAccess, waitAttempts env ≤ maxInitAttempts) ∧
    (∀ (avail : Nat → Bool) (n : Nat), avail n = true →
        sortIntervalActiveAfter avail (n + 1) = false) := by
  constructor
  · intro env
    exact waitCallCount_le_fuel env maxInitAttempts 0
  · intro avail n h
    simp [sortIntervalActiveAfter, h]

/-- Witness for the amended C7: a never-ready iframe stays within the
attempt budget, and a tick with the button present stops the interval. -/
theorem pollingLoopCancellation_witness :
    waitAttempts (fun _ => DocAccess.nullDoc) ≤ maxInitAttempts ∧
    sortIntervalActiveAfter (fun _ => true) 1 = false :=
  ⟨pollingLoopCancellation.1 (fun _ => DocAccess.nullDoc),
   pollingLoopCancellation.2 (fun _ => true) 0 rfl⟩

/-- Claim C8: when a composer iframe's document is never ready during
the allotted attempts, `waitForIframeDoc` rejects, the `.catch` in
`setupComposerObserver` swallows the rejection (that composer is
simply never watched, no exception escapes), and processing of any
subsequently detected composer iframes is unaffected. -/
theorem waitForIframeDoc_rejectionSwallowed
    (env : Nat → DocAccess)
    (h : ∀ j, j < maxInitAttempts → accessReady (env j) = false) :
    waitForIframeDoc env = .rejected ∧
    watchComposer env = none ∧
    (∀ rest : List (Nat → DocAccess),
        processComposerList (env :: rest) = none :: processComposerList rest) := by
  have hrej : waitForIframeDoc env = .rejected :=
    waitCalls_neverReady_rejected env h maxInitAttempts 0 (by omega)
  have hw : watchComposer env = none := by simp [watchComposer, hrej]
  exact ⟨hrej, hw, fun rest => by simp [processComposerList, hw]⟩

/-- Witness for C8: an iframe whose document stays null is rejected
and abandoned, while a later composer whose document is ready is still
watched. -/
theorem waitForIframeDoc_rejectionSwallowed_witness :
    waitForIframeDoc (fun _ => DocAccess.nullDoc) = WaitResult.rejected ∧
    processComposerList [fun _ => DocAccess.nullDoc, fun _ => DocAccess.doc "complete"] =
      [none, some ()] := by
  have h := waitForIframeDoc_rejectionSwallowed (fun _ => DocAccess.nullDoc) (fun j _ => rfl)
  refine ⟨h.1, ?_⟩
  rw [h.2.2 [fun _ => DocAccess.doc "complete"]]
  rfl

/-- Claim C9: the guard `!node.nodeType === Node.ELEMENT_NODE`
evaluates to false for every node type (the negation yields a boolean,
which strict equality never equates with the number 1), so the early
return is never taken: the callback treats every added node with the
unguarded body, which completes on non-element nodes as well because
`matches` and `querySelectorAll` are reached through optional
chaining. -/
theorem composerGuardNeverSkips :
    (∀ t : Nat, nodeTypeGuard t = false) ∧
    (∀ n : AddedNode, collectComposerIframes n = collectComposerIframesNoGuard n) := by
  have hg : ∀ t : Nat, nodeTypeGuard t = false := fun t => rfl
  exact ⟨hg, fun a => by
    simp [collectComposerIframes, collectComposerIframesNoGuard, hg a.nodeType]⟩

/-- Claim C10: on a location whose pathname matches the inbox pattern
and whose fragment lacks the marker, `checkURL` replaces the whole
fragment with exactly the marker (discarding any previous fragment)
and leaves pathname and search untouched. -/
theorem checkURL_replacesFragmentOnly
    (u : JsURL)
    (hroute : matchesInboxPattern u.pathname = true)
    (hmark : strIncludes u.hash sortParam = false) :
    checkURL u = (⟨u.pathname, u.search, "#sort=date"⟩, true) := by
  simp [checkURL, hroute, hmark, jsSetHash_sortParam]

/-- Witness for C10 on a concrete URL with query and a pre-existing
fragment. -/
theorem checkURL_replacesFragmentOnly_witness :
    checkURL ⟨"/u/7/inbox", "?page=2", "#old-fragment"⟩ =
      (⟨"/u/7/inbox", "?page=2", "#sort=date"⟩, true) :=
  checkURL_replacesFragmentOnly ⟨"/u/7/inbox", "?page=2", "#old-fragment"⟩
    (by decide) (by decide)
